import Mathlib

/-!
# Verification of the qalkulator calculator engine (src/script.js)

Shallow embedding of the `Calculator` class of `src/script.js`.  JavaScript
strings are modelled as `List Char`; JavaScript numbers are modelled as exact
rationals (`ℚ`).  The one deliberate idealization is that IEEE-754 doubles are
replaced by exact rational arithmetic; every concrete input used in a theorem
below was chosen so that the double computation and the exact computation
agree (all involved values are exactly representable, or the 8-decimal
rounding step absorbs the difference).

State fields mirror the class fields: `currentOperand`, `previousOperand`,
`operation` (the raw operator string, `none` for JS `undefined`) and
`shouldResetDisplay`.  The DOM-element fields of the class are rendering
glue, outside the computation core.
-/

namespace Qalkulator

/-- The mutable state of the `Calculator` class (`src/script.js`, constructor
and `clear`).  Operand strings are lists of characters. -/
structure Calculator where
  currentOperand : List Char
  previousOperand : List Char
  operation : Option (List Char)
  shouldResetDisplay : Bool
deriving DecidableEq, Repr

/-- `this.maxDigits = 12` (constructor): overflow guard on typed input. -/
def maxDigits : Nat := 12

/-- Error signals surfaced through `showError` in `compute`
(`'Cannot divide by zero!'`, `'Cannot modulo by zero!'`, `'Result too large!'`).
`showError` itself only touches the DOM and schedules a delayed reset, so the
engine state is unchanged when a signal is raised. -/
inductive CalcError where
  | divideByZero
  | moduloByZero
  | overflow
deriving DecidableEq, Repr

/-- `clear()`: resets all four fields (and the state built by the
constructor, which calls `clear`). -/
def Calculator.clear : Calculator :=
  { currentOperand := [], previousOperand := [], operation := none,
    shouldResetDisplay := false }

/-- `delete()`: full clear when `shouldResetDisplay` is set, otherwise
`currentOperand.slice(0, -1)` (drop the last character). -/
def Calculator.delete (s : Calculator) : Calculator :=
  if s.shouldResetDisplay then Calculator.clear
  else { s with currentOperand := s.currentOperand.dropLast }

/-- The part of `appendNumber` after the reset step: reject a duplicate
decimal point, reject input beyond `maxDigits`, otherwise append. -/
def appendBody (number : List Char) (s1 : Calculator) : Calculator :=
  if number = ['.'] ∧ '.' ∈ s1.currentOperand then s1
  else if maxDigits ≤ s1.currentOperand.length then s1
  else { s1 with currentOperand := s1.currentOperand ++ number }

/-- `appendNumber(number)`: start fresh after a result (empty
`currentOperand`, drop the flag), then `appendBody`. -/
def Calculator.appendNumber (number : List Char) (s : Calculator) : Calculator :=
  appendBody number
    (if s.shouldResetDisplay then
      { s with currentOperand := [], shouldResetDisplay := false } else s)

/-! ## `parseFloat`

JS `parseFloat` parses the longest numeric prefix: optional sign, digits,
optional `.` and digits, optional exponent part; it returns `NaN` when no
digit was consumed.  (The whitespace-skipping and `Infinity` forms never
arise from calculator operand strings and are not modelled.)  The digit
content is first collected as natural numbers so that the kernel can
evaluate it, then converted to `ℚ` in one step. -/

/-- Leading sign: returns (isNegative, rest). -/
def parseSign : List Char → Bool × List Char
  | '-' :: rest => (true, rest)
  | '+' :: rest => (false, rest)
  | l => (false, l)

/-- Value of a digit string, most significant first. -/
def digitsToNat (l : List Char) : Nat :=
  l.foldl (fun a c => 10 * a + (c.toNat - '0'.toNat)) 0

/-- Longest digit prefix and the rest. -/
def takeDigits (l : List Char) : List Char × List Char :=
  (l.takeWhile Char.isDigit, l.dropWhile Char.isDigit)

/-- Numeric prefix, first pass: sign, integer-part value, fraction-part value,
fraction length, exponent sign, exponent magnitude. `none` when neither an
integer nor a fraction digit is present (JS `NaN`). -/
def parseNumRep (l : List Char) : Option (Bool × Nat × Nat × Nat × Bool × Nat) :=
  let (neg, l1) := parseSign l
  let (ip, l2) := takeDigits l1
  let (fp, l3) := match l2 with
    | '.' :: r => takeDigits r
    | _ => ([], l2)
  if ip = [] ∧ fp = [] then none
  else
    let (eneg, emag) := match l3 with
      | c :: r =>
        if c = 'e' ∨ c = 'E' then
          let (es, r1) := parseSign r
          let (ed, _) := takeDigits r1
          if ed = [] then (false, 0) else (es, digitsToNat ed)
        else (false, 0)
      | [] => (false, 0)
    some (neg, digitsToNat ip, digitsToNat fp, fp.length, eneg, emag)

/-- The rational value of a parsed numeric prefix. -/
def repValue : Bool × Nat × Nat × Nat × Bool × Nat → ℚ
  | (neg, ip, fp, fpLen, eneg, emag) =>
    let mant : ℚ := (ip : ℚ) + (fp : ℚ) / 10 ^ fpLen
    let signed : ℚ := if neg then -mant else mant
    if eneg then signed / 10 ^ emag else signed * 10 ^ emag

/-- JS `parseFloat`, as an exact rational (`none` for `NaN`). -/
def parseFloat (l : List Char) : Option ℚ :=
  (parseNumRep l).map repValue

/-! ## Rounding and result rendering

`compute` rounds via
`Math.round((computation + Number.EPSILON) * 100000000) / 100000000`.
`Number.EPSILON` is `2⁻⁵²`; ECMA `Math.round x` is the closest integer with
ties toward `+∞`, i.e. `⌊x + 1/2⌋` exactly.  The program evaluates the
scaled multiply and the final divide in doubles, each a rounding of its
own; `roundScaled`/`roundTo8` model the expression over exact rationals,
so they are relied on only at inputs whose scaled value is exactly
representable in a double.  The rounded result is stored as
`computation.toString()`; `toString` of a double whose value is `m / 10⁸`
prints the decimal expansion of `m / 10⁸` (plain decimal form for
`10⁻⁶ ≤ |x| < 10²¹`, exponent form outside, per ECMA `Number::toString`),
modelled by `scaledToString m` below. -/

/-- `Number.EPSILON`. -/
def epsilonJS : ℚ := 1 / 2 ^ 52

/-- The scaled rounded result: `Math.round((c + Number.EPSILON) * 10^8)`. -/
def roundScaled (c : ℚ) : ℤ := ⌊(c + epsilonJS) * 10 ^ 8 + 1 / 2⌋

/-- The rounding performed by `compute`:
`Math.round((c + Number.EPSILON) * 10^8) / 10^8`. -/
def roundTo8 (c : ℚ) : ℚ := (roundScaled c : ℚ) / 10 ^ 8

/-- Decimal digits of `n`, most significant first (`fuel` bounds recursion
depth; `natDigits` supplies enough). -/
def natDigitsAux : Nat → Nat → List Char
  | 0, _ => []
  | _ + 1, 0 => []
  | fuel + 1, n + 1 =>
    natDigitsAux fuel ((n + 1) / 10) ++ [Nat.digitChar ((n + 1) % 10)]

/-- Decimal digit string of a natural number. -/
def natDigits (n : Nat) : List Char :=
  if n = 0 then ['0'] else natDigitsAux (n + 1) n

/-- Drop trailing `'0'` characters. -/
def stripTrailZeros (l : List Char) : List Char :=
  (l.reverse.dropWhile (fun c => c = '0')).reverse

/-- Left-pad with `'0'` to length `k`. -/
def padLeftZeros (k : Nat) (l : List Char) : List Char :=
  List.replicate (k - l.length) '0' ++ l

/-- `toString` of the positive value `n / 10^8`, plain decimal form
(used for `10⁻⁶ ≤ n/10⁸ < 10²¹`). -/
def plainScaled (n : Nat) : List Char :=
  if n % 10 ^ 8 = 0 then natDigits (n / 10 ^ 8)
  else natDigits (n / 10 ^ 8) ++
    '.' :: stripTrailZeros (padLeftZeros 8 (natDigits (n % 10 ^ 8)))

/-- `toString` of the positive value `n / 10^8` for `n < 100`
(value below `10⁻⁶`): JS exponent form such as `1e-8`, `1.5e-7`, `1e-7`. -/
def smallScaled (n : Nat) : List Char :=
  if n < 10 then natDigits n ++ ['e', '-', '8']
  else if n % 10 = 0 then natDigits (n / 10) ++ ['e', '-', '7']
  else natDigits (n / 10) ++ '.' :: natDigits (n % 10) ++ ['e', '-', '7']

/-- `toString` of the positive value `n / 10^8` for `n ≥ 10^29`
(value at least `10²¹`): JS exponent form `d.ddd…e+EE`. -/
def bigScaled (n : Nat) : List Char :=
  if stripTrailZeros (natDigits n) = [] then ['0']
  else
    (stripTrailZeros (natDigits n)).take 1 ++
    (if (stripTrailZeros (natDigits n)).tail = [] then []
      else '.' :: (stripTrailZeros (natDigits n)).tail) ++
    'e' :: '+' :: natDigits ((natDigits n).length - 9)

/-- `toString` of the positive value `n / 10^8`, dispatching on magnitude. -/
def natAbsScaled (n : Nat) : List Char :=
  if n < 100 then smallScaled n
  else if 10 ^ 29 ≤ n then bigScaled n
  else plainScaled n

/-- `computation.toString()` for the rounded value `m / 10^8`. -/
def scaledToString (m : ℤ) : List Char :=
  if m = 0 then ['0']
  else if m < 0 then '-' :: natAbsScaled m.natAbs
  else natAbsScaled m.natAbs

/-- Truncation toward zero (JS number-to-integer semantics used by `%`). -/
def ratTrunc (q : ℚ) : ℤ := if 0 ≤ q then ⌊q⌋ else -⌊-q⌋

/-- JS remainder `a % b`: same sign as the dividend. -/
def jsMod (a b : ℚ) : ℚ := a - b * (ratTrunc (a / b) : ℚ)

/-- The state stored by the success path of `compute`. -/
def resultState (m : ℤ) : Calculator :=
  { currentOperand := scaledToString m, previousOperand := [],
    operation := none, shouldResetDisplay := true }

/-- Tail of `compute` once the raw result `c` is known: the `isFinite`
overflow guard (exact-arithmetic threshold `2¹⁰²⁴`, the smallest magnitude
beyond every finite double), then rounding and storing. -/
def finishCompute (s : Calculator) (c : ℚ) : Calculator × Option CalcError :=
  if (2 : ℚ) ^ 1024 ≤ |c| then (s, some CalcError.overflow)
  else (resultState (roundScaled c), none)

/-- `compute()`: parse both operands (`NaN` ⇒ silent no-op), dispatch on the
operator string (unknown/absent ⇒ no-op), signal divide-by-zero and
modulo-by-zero on a zero divisor without touching state, guard overflow,
round, store. -/
def Calculator.compute (s : Calculator) : Calculator × Option CalcError :=
  match parseFloat s.previousOperand, parseFloat s.currentOperand with
  | some prev, some current =>
    match s.operation with
    | some op =>
      if op = ['+'] then finishCompute s (prev + current)
      else if op = ['-'] then finishCompute s (prev - current)
      else if op = ['×'] then finishCompute s (prev * current)
      else if op = ['÷'] then
        if current = 0 then (s, some CalcError.divideByZero)
        else finishCompute s (prev / current)
      else if op = ['%'] then
        if current = 0 then (s, some CalcError.moduloByZero)
        else finishCompute s (jsMod prev current)
      else (s, none)
    | none => (s, none)
  | _, _ => (s, none)

/-- The tail of `chooseOperation`: latch the operator, shift
`currentOperand` into `previousOperand`, clear the reset flag.  `s1` is the
state after the optional chained `compute()`. -/
def chooseBody (op : List Char) (s1 : Calculator) : Calculator :=
  { s1 with
    operation := some op
    previousOperand := s1.currentOperand
    currentOperand := []
    shouldResetDisplay := false }

/-- `chooseOperation(operation)`: no-op on two empty operands; operator
replacement when only `currentOperand` is empty; otherwise an optional
chained `compute()` (its error signal goes to the DOM only), then latch the
operator and shift the operands. -/
def Calculator.chooseOperation (op : List Char) (s : Calculator) : Calculator :=
  if s.currentOperand = [] ∧ s.previousOperand = [] then s
  else if s.currentOperand = [] ∧ s.previousOperand ≠ [] then
    { s with operation := some op }
  else
    chooseBody op
      (if s.previousOperand ≠ [] ∧ s.shouldResetDisplay = false then
        (Calculator.compute s).1 else s)

/-! ## Display formatting (`getDisplayNumber`, lines 130–155) -/

/-- Intl's default `halfExpand` rounding (round half away from zero),
used by `toLocaleString` when trimming to `maximumFractionDigits: 0`. -/
def roundHalfExpand (q : ℚ) : ℤ :=
  if 0 ≤ q then ⌊q + 1 / 2⌋ else -⌊-q + 1 / 2⌋

/-- Insert `','` after every three characters of a reversed digit list. -/
def groupRev : List Char → List Char
  | a :: b :: c :: d :: rest => a :: b :: c :: ',' :: groupRev (d :: rest)
  | l => l

/-- `en` thousands grouping of a digit list. -/
def groupCommas (l : List Char) : List Char := (groupRev l.reverse).reverse

/-- `integerDigits.toLocaleString('en', { maximumFractionDigits: 0 })`:
round to an integer, render with comma grouping.  (IEEE-754 negative zero,
which `toLocaleString` renders as `-0`, does not exist in `ℚ` and is not
modelled.) -/
def toLocaleStringEn (q : ℚ) : List Char :=
  let n := roundHalfExpand q
  (if n < 0 then ['-'] else []) ++ groupCommas (natDigits n.natAbs)

/-- `getDisplayNumber(number)`: split at the first `.` (JS `split('.')`
yields `integerPart`, the segment before the first dot — here
`takeWhile (· != '.')` — and `decimalPart`, the segment between the first
and second dots, absent when the string has no dot — here read off
`dropWhile (· != '.')`).  The integer display is the grouped
`toLocaleString` of `parseFloat(integerPart)`, empty on `NaN`; the decimal
part, when present, is truncated to 8 characters and re-appended after a
`'.'`. -/
def Calculator.getDisplayNumber (number : List Char) : List Char :=
  if number = [] then []
  else
    (match parseFloat (number.takeWhile (fun c => c != '.')) with
      | none => []
      | some q => toLocaleStringEn q) ++
    (match number.dropWhile (fun c => c != '.') with
      | [] => []
      | _ :: r => '.' :: (r.takeWhile (fun c => c != '.')).take 8)

/-! ## The spec's claimed rounding rule (for comparison with `roundScaled`) -/

/-- Modelled from the spec's words, for comparison with the code's rounding:
"rounds the result to 8 decimal places using a round-half-away-from-zero
rule on the scaled value (multiply by 10^8, round to nearest integer,
divide back)".  Round half away from zero of `x` is `⌊x + 1/2⌋` for
`x ≥ 0` and `-⌊-x + 1/2⌋` otherwise. -/
def specRoundHalfAwayScaled (c : ℚ) : ℤ :=
  if 0 ≤ c then ⌊c * 10 ^ 8 + 1 / 2⌋ else -⌊-(c * 10 ^ 8) + 1 / 2⌋

/-- The spec's claimed rounding: half away from zero on the scaled value. -/
def specRound8 (c : ℚ) : ℚ := (specRoundHalfAwayScaled c : ℚ) / 10 ^ 8

/-! ## Reachable states

The five engine operations, driven by the Input Adapter's command
vocabulary (§6 of the spec): `appendNumber` receives single digit
characters or the decimal point; `chooseOperation` and the others are
unrestricted here (the operator payload never flows into an operand). -/

/-- Tokens the Input Adapter can feed to `appendNumber`: a digit button or
the decimal-point button. -/
def NumToken (t : List Char) : Prop :=
  t = ['.'] ∨ ∃ c, c.isDigit ∧ t = [c]

/-- States reachable from the initial state (the constructor calls
`clear()`) by the five operations. -/
inductive Reachable : Calculator → Prop
  | init : Reachable Calculator.clear
  | clear (s : Calculator) : Reachable s → Reachable Calculator.clear
  | delete (s : Calculator) : Reachable s → Reachable s.delete
  | append (s : Calculator) (t : List Char) :
      Reachable s → NumToken t → Reachable (Calculator.appendNumber t s)
  | choose (s : Calculator) (op : List Char) :
      Reachable s → Reachable (Calculator.chooseOperation op s)
  | compute (s : Calculator) : Reachable s → Reachable (s.compute).1

/-! ## Evaluation helpers -/

/-- Evaluate `parseFloat` from a kernel-checked first pass plus a `norm_num`
value computation. -/
theorem parseFloat_eq (l : List Char) (r : Bool × Nat × Nat × Nat × Bool × Nat)
    (q : ℚ) (h1 : parseNumRep l = some r) (h2 : repValue r = q) :
    parseFloat l = some q := by
  unfold parseFloat
  rw [h1, Option.map_some', h2]

/-- Evaluate the success path of `finishCompute`. -/
theorem finishCompute_eq (s : Calculator) (c : ℚ) (m : ℤ) (h1 : |c| < 2 ^ 1024)
    (h2 : roundScaled c = m) : finishCompute s c = (resultState m, none) := by
  unfold finishCompute
  rw [if_neg (not_le.mpr h1), h2]

/-- `compute` dispatch: addition. -/
theorem compute_of_add (s : Calculator) (p c : ℚ)
    (hp : parseFloat s.previousOperand = some p)
    (hc : parseFloat s.currentOperand = some c)
    (hop : s.operation = some ['+']) :
    s.compute = finishCompute s (p + c) := by
  unfold Calculator.compute
  rw [hp, hc, hop]
  rfl

/-- `compute` dispatch: subtraction. -/
theorem compute_of_sub (s : Calculator) (p c : ℚ)
    (hp : parseFloat s.previousOperand = some p)
    (hc : parseFloat s.currentOperand = some c)
    (hop : s.operation = some ['-']) :
    s.compute = finishCompute s (p - c) := by
  unfold Calculator.compute
  rw [hp, hc, hop]
  rfl

/-- `compute` dispatch: multiplication. -/
theorem compute_of_mul (s : Calculator) (p c : ℚ)
    (hp : parseFloat s.previousOperand = some p)
    (hc : parseFloat s.currentOperand = some c)
    (hop : s.operation = some ['×']) :
    s.compute = finishCompute s (p * c) := by
  unfold Calculator.compute
  rw [hp, hc, hop]
  rfl

/-- `compute` dispatch: division by zero signals and aborts. -/
theorem compute_of_div_zero (s : Calculator) (p : ℚ)
    (hp : parseFloat s.previousOperand = some p)
    (hc : parseFloat s.currentOperand = some 0)
    (hop : s.operation = some ['÷']) :
    s.compute = (s, some CalcError.divideByZero) := by
  unfold Calculator.compute
  rw [hp, hc, hop]
  rfl

/-- `compute` dispatch: modulo by zero signals and aborts. -/
theorem compute_of_mod_zero (s : Calculator) (p : ℚ)
    (hp : parseFloat s.previousOperand = some p)
    (hc : parseFloat s.currentOperand = some 0)
    (hop : s.operation = some ['%']) :
    s.compute = (s, some CalcError.moduloByZero) := by
  unfold Calculator.compute
  rw [hp, hc, hop]
  rfl

/-! ## Character-level facts about the result renderer -/

/-- `Nat.digitChar` of a value below ten is a decimal digit. -/
theorem digitChar_isDigit (d : Nat) (h : d < 10) :
    (Nat.digitChar d).isDigit = true := by
  interval_cases d <;> decide

/-- Every character produced by `natDigitsAux` is a decimal digit. -/
theorem natDigitsAux_isDigit (fuel : Nat) :
    ∀ n, ∀ c ∈ natDigitsAux fuel n, c.isDigit = true := by
  induction fuel with
  | zero => intro n c hc; simp [natDigitsAux] at hc
  | succ f ih =>
    intro n c hc
    cases n with
    | zero => simp [natDigitsAux] at hc
    | succ k =>
      rw [natDigitsAux] at hc
      rcases List.mem_append.mp hc with h | h
      · exact ih _ c h
      · rcases List.mem_singleton.mp h with rfl
        exact digitChar_isDigit _ (Nat.mod_lt _ (by norm_num))

/-- Every character of `natDigits n` is a decimal digit. -/
theorem natDigits_isDigit (n : Nat) : ∀ c ∈ natDigits n, c.isDigit = true := by
  unfold natDigits
  split
  · intro c hc
    rcases List.mem_singleton.mp hc with rfl
    decide
  · exact natDigitsAux_isDigit _ _

/-- `natDigits` is never empty. -/
theorem natDigits_ne_nil (n : Nat) : natDigits n ≠ [] := by
  unfold natDigits
  split
  · simp
  · next h =>
    cases n with
    | zero => exact absurd rfl h
    | succ k =>
      rw [natDigitsAux]
      simp

/-- A list of digit characters contains no `'.'`. -/
theorem count_dot_eq_zero_of_digits (l : List Char)
    (h : ∀ c ∈ l, c.isDigit = true) : l.count '.' = 0 :=
  List.count_eq_zero.mpr (fun hm => absurd (h '.' hm) (by decide))

/-- `natDigits` contains no `'.'`. -/
theorem count_dot_natDigits (n : Nat) : (natDigits n).count '.' = 0 :=
  count_dot_eq_zero_of_digits _ (natDigits_isDigit n)

/-- Stripping trailing zeros only removes characters. -/
theorem stripTrailZeros_subset (l : List Char) : stripTrailZeros l ⊆ l := by
  intro c hc
  unfold stripTrailZeros at hc
  rw [List.mem_reverse] at hc
  exact List.mem_reverse.mp (List.dropWhile_subset _ hc)

/-- Stripping trailing zeros does not increase a character count. -/
theorem count_stripTrailZeros_le (a : Char) (l : List Char) :
    (stripTrailZeros l).count a ≤ l.count a := by
  unfold stripTrailZeros
  rw [List.count_reverse]
  calc (l.reverse.dropWhile (fun c => c = '0')).count a
      ≤ l.reverse.count a := (List.dropWhile_sublist _).count_le a
    _ = l.count a := List.count_reverse a l

/-- Left-padding with zeros does not change the `'.'` count. -/
theorem count_dot_padLeftZeros (k : Nat) (l : List Char) :
    (padLeftZeros k l).count '.' = l.count '.' := by
  unfold padLeftZeros
  rw [List.count_append, List.count_replicate, if_neg (by decide)]
  omega

/-- The plain decimal rendering contains at most one `'.'`. -/
theorem count_dot_plainScaled (n : Nat) : (plainScaled n).count '.' ≤ 1 := by
  unfold plainScaled
  split
  · rw [count_dot_natDigits]
    norm_num
  · have hx : (stripTrailZeros (padLeftZeros 8 (natDigits (n % 10 ^ 8)))).count '.' = 0 :=
      Nat.le_zero.mp (by
        calc (stripTrailZeros (padLeftZeros 8 (natDigits (n % 10 ^ 8)))).count '.'
            ≤ (padLeftZeros 8 (natDigits (n % 10 ^ 8))).count '.' :=
              count_stripTrailZeros_le _ _
          _ = 0 := by rw [count_dot_padLeftZeros, count_dot_natDigits])
    rw [List.count_append, count_dot_natDigits, List.count_cons, hx]
    norm_num

/-- The small-magnitude exponent rendering contains at most one `'.'`. -/
theorem count_dot_smallScaled (n : Nat) : (smallScaled n).count '.' ≤ 1 := by
  unfold smallScaled
  split_ifs
  · rw [List.count_append, count_dot_natDigits]
    decide
  · rw [List.count_append, count_dot_natDigits]
    decide
  · have h1 : (List.count '.' (['e', '-', '7'] : List Char)) = 0 := by decide
    rw [List.count_append, List.count_append, count_dot_natDigits, List.count_cons,
      count_dot_natDigits, h1]
    decide

/-- The large-magnitude exponent rendering contains at most one `'.'`. -/
theorem count_dot_bigScaled (n : Nat) : (bigScaled n).count '.' ≤ 1 := by
  have hdig : ∀ x ∈ stripTrailZeros (natDigits n), x.isDigit = true :=
    fun x hx => natDigits_isDigit n x (stripTrailZeros_subset _ hx)
  have htake : (List.take 1 (stripTrailZeros (natDigits n))).count '.' = 0 :=
    count_dot_eq_zero_of_digits _
      (fun c hc => hdig c ((List.take_sublist _ _).subset hc))
  have htail : (stripTrailZeros (natDigits n)).tail.count '.' = 0 :=
    count_dot_eq_zero_of_digits _
      (fun c hc => hdig c ((List.tail_sublist _).subset hc))
  have hexp : ('e' :: '+' :: natDigits ((natDigits n).length - 9)).count '.' = 0 := by
    rw [List.count_cons, List.count_cons, count_dot_natDigits]
    decide
  unfold bigScaled
  split_ifs
  · decide
  · rw [List.count_append, List.count_append, htake, List.count_nil, hexp]
    decide
  · rw [List.count_append, List.count_append, htake, hexp, List.count_cons, htail]
    decide

/-- Every magnitude rendering contains at most one `'.'`. -/
theorem count_dot_natAbsScaled (n : Nat) : (natAbsScaled n).count '.' ≤ 1 := by
  unfold natAbsScaled
  split_ifs
  · exact count_dot_smallScaled n
  · exact count_dot_bigScaled n
  · exact count_dot_plainScaled n

/-- The stored result string contains at most one `'.'`. -/
theorem count_dot_scaledToString (m : ℤ) : (scaledToString m).count '.' ≤ 1 := by
  unfold scaledToString
  split_ifs
  · decide
  · rw [List.count_cons, if_neg (by decide)]
    have := count_dot_natAbsScaled m.natAbs
    omega
  · exact count_dot_natAbsScaled m.natAbs

/-- The small rendering is nonempty. -/
theorem smallScaled_ne_nil (n : Nat) : smallScaled n ≠ [] := by
  unfold smallScaled
  split_ifs <;> simp [natDigits_ne_nil]

/-- The big rendering is nonempty. -/
theorem bigScaled_ne_nil (n : Nat) : bigScaled n ≠ [] := by
  unfold bigScaled
  split_ifs <;> simp

/-- The plain rendering is nonempty. -/
theorem plainScaled_ne_nil (n : Nat) : plainScaled n ≠ [] := by
  unfold plainScaled
  split
  · exact natDigits_ne_nil _
  · simp [natDigits_ne_nil]

/-- The stored result string is never empty. -/
theorem scaledToString_ne_nil (m : ℤ) : scaledToString m ≠ [] := by
  unfold scaledToString natAbsScaled
  split_ifs <;>
    first
      | exact smallScaled_ne_nil _
      | exact bigScaled_ne_nil _
      | exact plainScaled_ne_nil _
      | simp

/-! ## Structural case lemmas -/

/-- `appendNumber` with no pending reset is `appendBody` on the state. -/
theorem appendNumber_of_not_reset (t : List Char) (s : Calculator)
    (h : s.shouldResetDisplay = false) :
    Calculator.appendNumber t s = appendBody t s := by
  unfold Calculator.appendNumber
  rw [h]
  rfl

/-- `appendNumber` with a pending reset first empties `currentOperand` and
clears the flag. -/
theorem appendNumber_of_reset (t : List Char) (s : Calculator)
    (h : s.shouldResetDisplay = true) :
    Calculator.appendNumber t s =
      appendBody t { s with currentOperand := [], shouldResetDisplay := false } := by
  unfold Calculator.appendNumber
  rw [h]
  rfl

/-- After any `appendNumber` the reset flag is down. -/
theorem appendNumber_flag (t : List Char) (s : Calculator) :
    (Calculator.appendNumber t s).shouldResetDisplay = false := by
  cases hsf : s.shouldResetDisplay with
  | false =>
    rw [appendNumber_of_not_reset t s hsf]
    unfold appendBody
    split_ifs <;> simp [hsf]
  | true =>
    rw [appendNumber_of_reset t s hsf]
    unfold appendBody
    split_ifs <;> rfl

/-- `chooseOperation` on two empty operands: no-op. -/
theorem chooseOperation_of_both_empty (op : List Char) (s : Calculator)
    (h1 : s.currentOperand = []) (h2 : s.previousOperand = []) :
    Calculator.chooseOperation op s = s := by
  unfold Calculator.chooseOperation
  rw [if_pos ⟨h1, h2⟩]

/-- `chooseOperation` with empty `currentOperand` but non-empty
`previousOperand`: operator replacement only. -/
theorem chooseOperation_of_empty_current (op : List Char) (s : Calculator)
    (h1 : s.currentOperand = []) (h2 : s.previousOperand ≠ []) :
    Calculator.chooseOperation op s = { s with operation := some op } := by
  unfold Calculator.chooseOperation
  rw [if_neg (fun h => h2 h.2), if_pos ⟨h1, h2⟩]

/-- `chooseOperation` with non-empty `currentOperand`: optional chained
compute, then `chooseBody`. -/
theorem chooseOperation_of_current (op : List Char) (s : Calculator)
    (h1 : s.currentOperand ≠ []) :
    Calculator.chooseOperation op s =
      chooseBody op
        (if s.previousOperand ≠ [] ∧ s.shouldResetDisplay = false then
          (s.compute).1 else s) := by
  unfold Calculator.chooseOperation
  rw [if_neg (fun h => h1 h.1), if_neg (fun h => h1 h.1)]

/-- Exhaustive description of `chooseOperation`'s three outcomes. -/
theorem chooseOperation_cases (op : List Char) (s : Calculator) :
    Calculator.chooseOperation op s = s ∨
    (s.previousOperand ≠ [] ∧
      Calculator.chooseOperation op s = { s with operation := some op }) ∨
    (∃ s1 : Calculator, (s1 = s ∨ s1 = (s.compute).1) ∧
      Calculator.chooseOperation op s = chooseBody op s1) := by
  by_cases h1 : s.currentOperand = []
  · by_cases h2 : s.previousOperand = []
    · exact Or.inl (chooseOperation_of_both_empty op s h1 h2)
    · exact Or.inr (Or.inl ⟨h2, chooseOperation_of_empty_current op s h1 h2⟩)
  · refine Or.inr (Or.inr ?_)
    by_cases h3 : s.previousOperand ≠ [] ∧ s.shouldResetDisplay = false
    · exact ⟨(s.compute).1, Or.inr rfl, by
        rw [chooseOperation_of_current op s h1, if_pos h3]⟩
    · exact ⟨s, Or.inl rfl, by
        rw [chooseOperation_of_current op s h1, if_neg h3]⟩

/-- `finishCompute` either aborts with the state untouched or stores a
rounded result. -/
theorem finishCompute_fst (s : Calculator) (c : ℚ) :
    (finishCompute s c).1 = s ∨ ∃ m : ℤ, (finishCompute s c).1 = resultState m := by
  unfold finishCompute
  split
  · exact Or.inl rfl
  · exact Or.inr ⟨_, rfl⟩

/-- `compute` either leaves the state untouched (parse failure, unknown or
absent operator, zero divisor, overflow) or stores a rounded result. -/
theorem compute_fst_cases (s : Calculator) :
    (s.compute).1 = s ∨ ∃ m : ℤ, (s.compute).1 = resultState m := by
  unfold Calculator.compute
  cases hp : parseFloat s.previousOperand with
  | none => exact Or.inl rfl
  | some p =>
    cases hc : parseFloat s.currentOperand with
    | none => exact Or.inl rfl
    | some c =>
      cases hop : s.operation with
      | none => exact Or.inl rfl
      | some op =>
        suffices h : ∀ r : Calculator × Option CalcError,
            r = (if op = ['+'] then finishCompute s (p + c)
              else if op = ['-'] then finishCompute s (p - c)
              else if op = ['×'] then finishCompute s (p * c)
              else if op = ['÷'] then
                if c = 0 then (s, some CalcError.divideByZero)
                else finishCompute s (p / c)
              else if op = ['%'] then
                if c = 0 then (s, some CalcError.moduloByZero)
                else finishCompute s (jsMod p c)
              else (s, none)) →
            r.1 = s ∨ ∃ m : ℤ, r.1 = resultState m by
          exact h _ rfl
        rintro r rfl
        split_ifs <;>
          first
            | exact Or.inl rfl
            | exact finishCompute_fst s _

/-! ## Inductive invariants -/

/-- `appendBody` preserves "at most one `'.'`" for adapter tokens. -/
theorem count_dot_appendBody (t : List Char) (s1 : Calculator)
    (ht : NumToken t) (hinv : s1.currentOperand.count '.' ≤ 1) :
    (appendBody t s1).currentOperand.count '.' ≤ 1 := by
  unfold appendBody
  split_ifs with h1 h2
  · exact hinv
  · exact hinv
  · show (s1.currentOperand ++ t).count '.' ≤ 1
    rw [List.count_append]
    rcases ht with rfl | ⟨c, hc, rfl⟩
    · have hd : '.' ∉ s1.currentOperand := fun hm => h1 ⟨rfl, hm⟩
      rw [List.count_eq_zero.mpr hd]
      decide
    · have hct : List.count '.' [c] = 0 := by
        rw [List.count_singleton, if_neg]
        intro hb
        have : c = '.' := by simpa using hb
        subst this
        exact absurd hc (by decide)
      omega

/-- Every reachable `currentOperand` holds at most one decimal point. -/
theorem dot_invariant (s : Calculator) (h : Reachable s) :
    s.currentOperand.count '.' ≤ 1 := by
  induction h with
  | init => decide
  | clear _ _ _ => decide
  | delete s hs ih =>
    unfold Calculator.delete
    split_ifs
    · decide
    · show (s.currentOperand.dropLast).count '.' ≤ 1
      calc (s.currentOperand.dropLast).count '.'
          ≤ s.currentOperand.count '.' := (List.dropLast_sublist _).count_le _
        _ ≤ 1 := ih
  | append s t hs ht ih =>
    cases hsf : s.shouldResetDisplay with
    | false =>
      rw [appendNumber_of_not_reset t s hsf]
      exact count_dot_appendBody t s ht ih
    | true =>
      rw [appendNumber_of_reset t s hsf]
      exact count_dot_appendBody t _ ht
        (show List.count '.' ([] : List Char) ≤ 1 by decide)
  | choose s op hs ih =>
    rcases chooseOperation_cases op s with h | ⟨_, h⟩ | ⟨s1, _, h⟩ <;> rw [h]
    · exact ih
    · exact ih
    · show List.count '.' ([] : List Char) ≤ 1
      decide
  | compute s hs ih =>
    rcases compute_fst_cases s with h | ⟨m, h⟩ <;> rw [h]
    · exact ih
    · exact count_dot_scaledToString m

/-- Every reachable state with the reset flag up is a fresh result state:
no pending operand, no pending operation, non-empty result. -/
theorem reset_flag_invariant (s : Calculator) (h : Reachable s) :
    s.shouldResetDisplay = true →
      s.previousOperand = [] ∧ s.operation = none ∧ s.currentOperand ≠ [] := by
  induction h with
  | init => intro hf; exact absurd hf (by decide)
  | clear _ _ _ => intro hf; exact absurd hf (by decide)
  | delete s hs ih =>
    intro hf
    unfold Calculator.delete at hf ⊢
    split_ifs at hf ⊢ with hd
    · exact absurd hf (by decide)
    · exact absurd hf hd
  | append s t hs ht ih =>
    intro hf
    rw [appendNumber_flag] at hf
    exact absurd hf (by decide)
  | choose s op hs ih =>
    intro hf
    rcases chooseOperation_cases op s with h | ⟨hprev, h⟩ | ⟨s1, _, h⟩
    · rw [h] at hf ⊢
      exact ih hf
    · rw [h] at hf
      exact absurd (ih hf).1 hprev
    · rw [h] at hf
      simp [chooseBody] at hf
  | compute s hs ih =>
    intro hf
    rcases compute_fst_cases s with h | ⟨m, h⟩ <;> rw [h] at hf ⊢
    · exact ih hf
    · exact ⟨rfl, rfl, scaledToString_ne_nil m⟩

/-! ## Concrete `parseFloat` evaluations -/

theorem pf_0 : parseFloat "0".toList = some 0 :=
  parseFloat_eq _ (false, 0, 0, 0, false, 0) _ (by decide) (by norm_num [repValue])

theorem pf_3 : parseFloat "3".toList = some 3 :=
  parseFloat_eq _ (false, 3, 0, 0, false, 0) _ (by decide) (by norm_num [repValue])

theorem pf_4 : parseFloat "4".toList = some 4 :=
  parseFloat_eq _ (false, 4, 0, 0, false, 0) _ (by decide) (by norm_num [repValue])

theorem pf_10 : parseFloat "10".toList = some 10 :=
  parseFloat_eq _ (false, 10, 0, 0, false, 0) _ (by decide) (by norm_num [repValue])

theorem pf_01 : parseFloat "0.1".toList = some (1 / 10) :=
  parseFloat_eq _ (false, 0, 1, 1, false, 0) _ (by decide) (by norm_num [repValue])

theorem pf_02 : parseFloat "0.2".toList = some (2 / 10) :=
  parseFloat_eq _ (false, 0, 2, 1, false, 0) _ (by decide) (by norm_num [repValue])

theorem pf_tiny : parseFloat "0.000000005".toList = some (1 / 200000000) :=
  parseFloat_eq _ (false, 0, 5, 9, false, 0) _ (by decide) (by norm_num [repValue])

theorem pf_sevenNines : parseFloat "9999999".toList = some 9999999 :=
  parseFloat_eq _ (false, 9999999, 0, 0, false, 0) _ (by decide) (by norm_num [repValue])

/-! ## Claims -/

/-- C1: chained calculation.  From the initial state, `appendNumber('3')`,
`chooseOperation('+')`, `appendNumber('4')`, `chooseOperation('×')`
internally computes `3 + 4 = 7` before latching the new operator, leaving
`previousOperand = "7"`, `operation = '×'`, `currentOperand = ""`. -/
theorem chained_calculation :
    Calculator.chooseOperation ['×']
      (Calculator.appendNumber ['4']
        (Calculator.chooseOperation ['+']
          (Calculator.appendNumber ['3'] Calculator.clear))) =
    { currentOperand := [], previousOperand := "7".toList,
      operation := some ['×'], shouldResetDisplay := false } := by
  have h1 : Calculator.appendNumber ['4']
      (Calculator.chooseOperation ['+']
        (Calculator.appendNumber ['3'] Calculator.clear)) =
      ⟨"4".toList, "3".toList, some ['+'], false⟩ := by decide
  rw [h1]
  have h2 : (Calculator.compute ⟨"4".toList, "3".toList, some ['+'], false⟩).1 =
      ⟨"7".toList, [], none, true⟩ := by
    rw [compute_of_add _ 3 4 pf_3 pf_4 rfl,
      finishCompute_eq _ _ 700000000 (by rw [abs_lt]; constructor <;> norm_num)
        (by unfold roundScaled epsilonJS; norm_num)]
    decide
  rw [chooseOperation_of_current ['×'] _ (by decide), if_pos (by decide), h2]
  decide

/-- C2: `compute` on `previousOperand = "10"`, `operation = '÷'`,
`currentOperand = "0"` signals `DivideByZero` and leaves every state field
(including an arbitrary `shouldResetDisplay`) unchanged; likewise `'%'`
with a zero divisor signals `ModuloByZero` with no mutation. -/
theorem compute_zero_divisor_aborts :
    ∀ b : Bool,
      Calculator.compute ⟨"0".toList, "10".toList, some ['÷'], b⟩ =
        (⟨"0".toList, "10".toList, some ['÷'], b⟩, some CalcError.divideByZero) ∧
      Calculator.compute ⟨"0".toList, "10".toList, some ['%'], b⟩ =
        (⟨"0".toList, "10".toList, some ['%'], b⟩, some CalcError.moduloByZero) := by
  intro b
  exact ⟨compute_of_div_zero _ 10 pf_10 pf_0 rfl,
    compute_of_mod_zero _ 10 pf_10 pf_0 rfl⟩

/-- C3 (counterexample): the code's rounding is
`Math.round((c + Number.EPSILON)·10⁸)/10⁸`, not round-half-away-from-zero
on the scaled value.  On `previousOperand = "0"`, `operation = '-'`,
`currentOperand = "0.000000005"` the exact result is `-5·10⁻⁹`, the code
stores `"0"` (its rounding yields `0`), while the claimed
half-away-from-zero rule yields `-10⁻⁸ ≠ 0`. -/
theorem rounding_rule_counterexample :
    (Calculator.compute
        ⟨"0.000000005".toList, "0".toList, some ['-'], false⟩).1.currentOperand
      = "0".toList ∧
    roundTo8 ((0 : ℚ) - 1 / 200000000) = 0 ∧
    specRound8 ((0 : ℚ) - 1 / 200000000) = -(1 / 100000000) ∧
    ((-(1 / 100000000) : ℚ)) ≠ 0 := by
  refine ⟨?_, ?_, ?_, by norm_num⟩
  · rw [compute_of_sub _ 0 (1 / 200000000) pf_0 pf_tiny rfl,
      finishCompute_eq _ _ 0 (by rw [abs_lt]; constructor <;> norm_num)
        (by unfold roundScaled epsilonJS; norm_num)]
    decide
  · unfold roundTo8 roundScaled epsilonJS
    norm_num
  · unfold specRound8 specRoundHalfAwayScaled
    rw [if_neg (by norm_num)]
    norm_num

/-- C3 (amended): `compute`'s rounding rule is
`Math.round((c + Number.EPSILON)·10⁸)/10⁸` — floor of the scaled value plus
one half, biased upward by `Number.EPSILON` (round half toward `+∞`), not
round-half-away-from-zero.  Asserted here at `0.1 + 0.2`, whose scaled
value `3·10⁷` is far inside the double-exact range, so the exact-rational
model agrees with the doubles of line 106: the 8-decimal rounding of the
sum is exactly `3/10` and the stored result string is exactly `"0.3"`.
No accuracy bound is asserted for arbitrary results: the scaled multiply
and final divide of line 106 are double roundings of their own, so a
result whose scaled value approaches `2⁵³` can stray from the exact value
(under IEEE doubles `999999999999 + 0` stores `"999999999998.9999"`). -/
theorem compute_rounding_eight_decimals :
    roundTo8 (1 / 10 + 2 / 10) = 3 / 10 ∧
    (∀ b : Bool,
      Calculator.compute ⟨"0.2".toList, "0.1".toList, some ['+'], b⟩ =
        ({ currentOperand := "0.3".toList, previousOperand := [],
           operation := none, shouldResetDisplay := true }, none)) := by
  constructor
  · unfold roundTo8 roundScaled epsilonJS
    norm_num
  · intro b
    rw [compute_of_add _ (1 / 10) (2 / 10) pf_01 pf_02 rfl,
      finishCompute_eq _ _ 30000000 (by rw [abs_lt]; constructor <;> norm_num)
        (by unfold roundScaled epsilonJS; norm_num)]
    decide

/-- C4: `compute` on `previousOperand = "3"`, `operation = '+'`,
`currentOperand = "4"` stores `"7"` in `currentOperand`, clears
`operation` and `previousOperand`, and raises `shouldResetDisplay`. -/
theorem compute_three_plus_four :
    ∀ b : Bool,
      Calculator.compute ⟨"4".toList, "3".toList, some ['+'], b⟩ =
        ({ currentOperand := "7".toList, previousOperand := [],
           operation := none, shouldResetDisplay := true }, none) := by
  intro b
  rw [compute_of_add _ 3 4 pf_3 pf_4 rfl,
    finishCompute_eq _ _ 700000000 (by rw [abs_lt]; constructor <;> norm_num)
      (by unfold roundScaled epsilonJS; norm_num)]
  decide

/-- Pressing the `9` digit button. -/
def pressNine (s : Calculator) : Calculator := Calculator.appendNumber ['9'] s

/-- C5 (counterexample): the reachable-state bound on `currentOperand`
fails at `compute`: typing `9999999`, `×`, `9999999`, `=` stores the
14-character result `"99999980000001"`, exceeding `maxDigits = 12`. -/
theorem maxDigits_counterexample :
    Reachable (Calculator.compute (pressNine (pressNine (pressNine (pressNine
        (pressNine (pressNine (pressNine (Calculator.chooseOperation ['×']
        (pressNine (pressNine (pressNine (pressNine (pressNine (pressNine
        (pressNine Calculator.clear)))))))))))))))).1 ∧
    maxDigits < (Calculator.compute (pressNine (pressNine (pressNine (pressNine
        (pressNine (pressNine (pressNine (Calculator.chooseOperation ['×']
        (pressNine (pressNine (pressNine (pressNine (pressNine (pressNine
        (pressNine Calculator.clear)))))))))))))))).1.currentOperand.length := by
  have h9 : NumToken ['9'] := Or.inr ⟨'9', by decide, rfl⟩
  constructor
  · have r0 : Reachable Calculator.clear := Reachable.init
    have r1 := Reachable.append _ _ r0 h9
    have r2 := Reachable.append _ _ r1 h9
    have r3 := Reachable.append _ _ r2 h9
    have r4 := Reachable.append _ _ r3 h9
    have r5 := Reachable.append _ _ r4 h9
    have r6 := Reachable.append _ _ r5 h9
    have r7 := Reachable.append _ _ r6 h9
    have r8 := Reachable.choose _ ['×'] r7
    have r9 := Reachable.append _ _ r8 h9
    have r10 := Reachable.append _ _ r9 h9
    have r11 := Reachable.append _ _ r10 h9
    have r12 := Reachable.append _ _ r11 h9
    have r13 := Reachable.append _ _ r12 h9
    have r14 := Reachable.append _ _ r13 h9
    have r15 := Reachable.append _ _ r14 h9
    exact Reachable.compute _ r15
  · have hpre : pressNine (pressNine (pressNine (pressNine (pressNine (pressNine
        (pressNine (Calculator.chooseOperation ['×'] (pressNine (pressNine
        (pressNine (pressNine (pressNine (pressNine
        (pressNine Calculator.clear)))))))))))))) =
        ⟨"9999999".toList, "9999999".toList, some ['×'], false⟩ := by decide
    rw [hpre, compute_of_mul _ 9999999 9999999 pf_sevenNines pf_sevenNines rfl,
      finishCompute_eq _ _ 9999998000000100000000
        (by rw [abs_lt]; constructor <;> norm_num)
        (by unfold roundScaled epsilonJS; norm_num)]
    decide

/-- C5 (amended): typing can never push `currentOperand` past `maxDigits`:
with no pending reset, `appendNumber` on an operand of `maxDigits` or more
characters is a no-op, and any `appendNumber` of a one-character token
keeps the length within `max` of the old length and `maxDigits`.  (The
bound does not extend to `compute` results, see the counterexample.) -/
theorem appendNumber_respects_maxDigits :
    (∀ (s : Calculator) (t : List Char), s.shouldResetDisplay = false →
        maxDigits ≤ s.currentOperand.length → Calculator.appendNumber t s = s) ∧
    (∀ (s : Calculator) (t : List Char), t.length ≤ 1 →
        (Calculator.appendNumber t s).currentOperand.length ≤
          max s.currentOperand.length maxDigits) := by
  have hmd : maxDigits = 12 := rfl
  constructor
  · intro s t hf hlen
    rw [appendNumber_of_not_reset t s hf]
    unfold appendBody
    by_cases h1 : t = ['.'] ∧ '.' ∈ s.currentOperand
    · rw [if_pos h1]
    · rw [if_neg h1, if_pos hlen]
  · intro s t ht
    cases hsf : s.shouldResetDisplay with
    | false =>
      rw [appendNumber_of_not_reset t s hsf]
      unfold appendBody
      split_ifs with h1 h2
      · exact le_max_left _ _
      · exact le_max_left _ _
      · show (s.currentOperand ++ t).length ≤ max s.currentOperand.length maxDigits
        rw [List.length_append]
        have hle : s.currentOperand.length + t.length ≤ maxDigits := by omega
        exact le_trans hle (le_max_right _ _)
    | true =>
      rw [appendNumber_of_reset t s hsf]
      unfold appendBody
      rw [if_neg (fun h => List.not_mem_nil '.' h.2), if_neg (by simp [maxDigits])]
      show (([] : List Char) ++ t).length ≤ max s.currentOperand.length maxDigits
      rw [List.nil_append]
      have : t.length ≤ maxDigits := by omega
      exact le_trans this (le_max_right _ _)

/-- Witness for C5 (amended): a full 12-character operand rejects a digit,
and appending a digit to `"123"` stays within the bound. -/
theorem appendNumber_respects_maxDigits_witness :
    Calculator.appendNumber ['1'] ⟨"999999999999".toList, [], none, false⟩ =
      ⟨"999999999999".toList, [], none, false⟩ ∧
    (Calculator.appendNumber ['1']
        ⟨"123".toList, [], none, false⟩).currentOperand.length ≤
      max ("123".toList).length maxDigits := by
  constructor
  · exact appendNumber_respects_maxDigits.1 _ _ rfl (by decide)
  · exact appendNumber_respects_maxDigits.2 _ _ (by decide)

/-- C7: `delete` is exactly `clear` when the reset flag is up; otherwise it
drops the last character of `currentOperand` (a no-op on an empty operand)
and leaves the other three fields unchanged. -/
theorem delete_spec :
    ∀ s : Calculator,
      (s.shouldResetDisplay = true → s.delete = Calculator.clear) ∧
      (s.shouldResetDisplay = false →
        s.delete = { s with currentOperand := s.currentOperand.dropLast } ∧
        (s.currentOperand = [] → s.delete = s)) := by
  intro s
  obtain ⟨cur, prev, op, fl⟩ := s
  constructor
  · intro h
    unfold Calculator.delete
    rw [if_pos h]
  · intro h
    replace h : fl = false := h
    subst h
    refine ⟨?_, ?_⟩
    · unfold Calculator.delete
      rw [if_neg Bool.false_ne_true]
    · intro hc
      replace hc : cur = [] := hc
      subst hc
      unfold Calculator.delete
      rw [if_neg Bool.false_ne_true]
      rfl

/-- Witness for C7 at concrete states. -/
theorem delete_spec_witness :
    Calculator.delete ⟨"7".toList, [], none, true⟩ = Calculator.clear ∧
    Calculator.delete ⟨"12".toList, [], none, false⟩ =
      ⟨"1".toList, [], none, false⟩ ∧
    Calculator.delete ⟨[], "3".toList, some ['+'], false⟩ =
      ⟨[], "3".toList, some ['+'], false⟩ := by
  refine ⟨(delete_spec _).1 rfl, ?_, ((delete_spec _).2 rfl).2 rfl⟩
  rw [((delete_spec _).2 rfl).1]
  decide

/-- C8: with an empty `currentOperand` and a non-empty `previousOperand`,
`chooseOperation` only replaces the pending operator: the operands and the
reset flag are untouched and no `compute` runs. -/
theorem chooseOperation_replaces_operator :
    ∀ (s : Calculator) (op : List Char),
      s.currentOperand = [] → s.previousOperand ≠ [] →
      Calculator.chooseOperation op s = { s with operation := some op } :=
  fun s op h1 h2 => chooseOperation_of_empty_current op s h1 h2

/-- Witness for C8: changing `+` to `-` after `3 +`. -/
theorem chooseOperation_replaces_operator_witness :
    Calculator.chooseOperation ['-'] ⟨[], "3".toList, some ['+'], false⟩ =
      ⟨[], "3".toList, some ['-'], false⟩ := by
  rw [chooseOperation_replaces_operator _ _ rfl (by decide)]

/-- Helper for C6: effect of two decimal-point presses on the dot count,
from any state whose operand has at most one dot. -/
theorem count_dot_double_press (s : Calculator)
    (hinv : s.currentOperand.count '.' ≤ 1) :
    (Calculator.appendNumber ['.']
        (Calculator.appendNumber ['.'] s)).currentOperand.count '.' ≤ 1 ∧
    (s.currentOperand.length < maxDigits →
      (Calculator.appendNumber ['.']
        (Calculator.appendNumber ['.'] s)).currentOperand.count '.' = 1) := by
  cases hsf : s.shouldResetDisplay with
  | true =>
    have h1 : Calculator.appendNumber ['.'] s =
        { s with currentOperand := ['.'], shouldResetDisplay := false } := by
      rw [appendNumber_of_reset _ _ hsf]
      unfold appendBody
      rw [if_neg (fun h => List.not_mem_nil '.' h.2), if_neg (by simp [maxDigits])]
      rfl
    have h2 : Calculator.appendNumber ['.']
        ({ s with currentOperand := ['.'], shouldResetDisplay := false }) =
        { s with currentOperand := ['.'], shouldResetDisplay := false } := by
      rw [appendNumber_of_not_reset _ _ rfl]
      unfold appendBody
      rw [if_pos ⟨rfl, show ('.' : Char) ∈ (['.'] : List Char) by decide⟩]
    rw [h1, h2]
    exact ⟨show List.count '.' (['.'] : List Char) ≤ 1 by decide,
      fun _ => show List.count '.' (['.'] : List Char) = 1 by decide⟩
  | false =>
    by_cases hdot : '.' ∈ s.currentOperand
    · have h1 : Calculator.appendNumber ['.'] s = s := by
        rw [appendNumber_of_not_reset _ _ hsf]
        unfold appendBody
        rw [if_pos ⟨rfl, hdot⟩]
      rw [h1, h1]
      have hge : 0 < s.currentOperand.count '.' := List.count_pos_iff.mpr hdot
      exact ⟨hinv, fun _ => by omega⟩
    · by_cases hlen : s.currentOperand.length < maxDigits
      · have h1 : Calculator.appendNumber ['.'] s =
            { s with currentOperand := s.currentOperand ++ ['.'] } := by
          rw [appendNumber_of_not_reset _ _ hsf]
          unfold appendBody
          rw [if_neg (fun h => hdot h.2), if_neg (by omega)]
        have hmem : '.' ∈ s.currentOperand ++ ['.'] :=
          List.mem_append.mpr (Or.inr (List.mem_singleton.mpr rfl))
        have h2 : Calculator.appendNumber ['.']
            ({ s with currentOperand := s.currentOperand ++ ['.'] }) =
            { s with currentOperand := s.currentOperand ++ ['.'] } := by
          rw [appendNumber_of_not_reset _ _
            (show ({ s with currentOperand := s.currentOperand ++ ['.'] } :
              Calculator).shouldResetDisplay = false from hsf)]
          unfold appendBody
          rw [if_pos ⟨rfl, hmem⟩]
        have hcnt : (s.currentOperand ++ ['.']).count '.' = 1 := by
          rw [List.count_append, List.count_eq_zero.mpr hdot]
          decide
        rw [h1, h2]
        exact ⟨by rw [show ({ s with currentOperand := s.currentOperand ++ ['.'] } :
            Calculator).currentOperand = s.currentOperand ++ ['.'] from rfl, hcnt],
          fun _ => by rw [show ({ s with currentOperand := s.currentOperand ++ ['.'] } :
            Calculator).currentOperand = s.currentOperand ++ ['.'] from rfl, hcnt]⟩
      · have h1 : Calculator.appendNumber ['.'] s = s := by
          rw [appendNumber_of_not_reset _ _ hsf]
          unfold appendBody
          rw [if_neg (fun h => hdot h.2), if_pos (by omega)]
        rw [h1, h1]
        exact ⟨hinv, fun hl => absurd hl hlen⟩

/-- C6 (amended): every reachable `currentOperand` holds at most one `'.'`;
with no pending reset, a decimal point is rejected (state unchanged) when
one is already present; two presses of `'.'` never leave more than one
`'.'`, and leave exactly one provided the operand was below the
`maxDigits` cap (at the cap with no dot present, both presses are
rejected, see the counterexample). -/
theorem decimal_point_invariant :
    ∀ s : Calculator, Reachable s →
      s.currentOperand.count '.' ≤ 1 ∧
      (s.shouldResetDisplay = false → '.' ∈ s.currentOperand →
        Calculator.appendNumber ['.'] s = s) ∧
      (Calculator.appendNumber ['.']
          (Calculator.appendNumber ['.'] s)).currentOperand.count '.' ≤ 1 ∧
      (s.currentOperand.length < maxDigits →
        (Calculator.appendNumber ['.']
          (Calculator.appendNumber ['.'] s)).currentOperand.count '.' = 1) := by
  intro s h
  have hinv := dot_invariant s h
  have hdp := count_dot_double_press s hinv
  refine ⟨hinv, ?_, hdp.1, hdp.2⟩
  intro hf hdot
  rw [appendNumber_of_not_reset _ _ hf]
  unfold appendBody
  rw [if_pos ⟨rfl, hdot⟩]

/-- Witness for C6 (amended) at the reachable state `"1"`. -/
theorem decimal_point_invariant_witness :
    (Calculator.appendNumber ['1'] Calculator.clear).currentOperand.count '.' ≤ 1 ∧
    ((Calculator.appendNumber ['1'] Calculator.clear).shouldResetDisplay = false →
      '.' ∈ (Calculator.appendNumber ['1'] Calculator.clear).currentOperand →
      Calculator.appendNumber ['.'] (Calculator.appendNumber ['1'] Calculator.clear) =
        Calculator.appendNumber ['1'] Calculator.clear) ∧
    (Calculator.appendNumber ['.'] (Calculator.appendNumber ['.']
        (Calculator.appendNumber ['1'] Calculator.clear))).currentOperand.count '.' ≤ 1 ∧
    ((Calculator.appendNumber ['1'] Calculator.clear).currentOperand.length < maxDigits →
      (Calculator.appendNumber ['.'] (Calculator.appendNumber ['.']
        (Calculator.appendNumber ['1'] Calculator.clear))).currentOperand.count '.' = 1) :=
  decimal_point_invariant _
    (Reachable.append _ _ Reachable.init (Or.inr ⟨'1', by decide, rfl⟩))

/-- C6 (counterexample): from the reachable state holding twelve `9`s
(no dot, operand at the `maxDigits` cap), pressing the decimal point twice
leaves zero `'.'` characters, not exactly one. -/
theorem decimal_point_twice_counterexample :
    Reachable (pressNine (pressNine (pressNine (pressNine (pressNine (pressNine
      (pressNine (pressNine (pressNine (pressNine (pressNine (pressNine
      Calculator.clear)))))))))))) ∧
    (Calculator.appendNumber ['.'] (Calculator.appendNumber ['.']
      (pressNine (pressNine (pressNine (pressNine (pressNine (pressNine
      (pressNine (pressNine (pressNine (pressNine (pressNine (pressNine
      Calculator.clear)))))))))))))).currentOperand.count '.' = 0 := by
  have h9 : NumToken ['9'] := Or.inr ⟨'9', by decide, rfl⟩
  constructor
  · have r0 : Reachable Calculator.clear := Reachable.init
    have r1 := Reachable.append _ _ r0 h9
    have r2 := Reachable.append _ _ r1 h9
    have r3 := Reachable.append _ _ r2 h9
    have r4 := Reachable.append _ _ r3 h9
    have r5 := Reachable.append _ _ r4 h9
    have r6 := Reachable.append _ _ r5 h9
    have r7 := Reachable.append _ _ r6 h9
    have r8 := Reachable.append _ _ r7 h9
    have r9 := Reachable.append _ _ r8 h9
    have r10 := Reachable.append _ _ r9 h9
    have r11 := Reachable.append _ _ r10 h9
    exact Reachable.append _ _ r11 h9
  · decide

/-- C9 helper: dropping a satisfying prefix. -/
theorem dropWhile_append_of_all (p : Char → Bool) (a l : List Char)
    (h : ∀ x ∈ a, p x = true) :
    List.dropWhile p (a ++ l) = List.dropWhile p l := by
  induction a with
  | nil => rfl
  | cons c t ih =>
    rw [List.cons_append, List.dropWhile_cons,
      if_pos (h c (List.mem_cons_self c t))]
    exact ih (fun x hx => h x (List.mem_cons_of_mem c hx))

/-- C10: in every reachable state, a raised `shouldResetDisplay` comes with
an empty `previousOperand`, no pending `operation`, and a non-empty
`currentOperand`; the ambiguous post-result configuration with the flag up
and an empty `currentOperand` is unreachable. -/
theorem reset_flag_reachable_post_result :
    ∀ s : Calculator, Reachable s → s.shouldResetDisplay = true →
      s.previousOperand = [] ∧ s.operation = none ∧ s.currentOperand ≠ [] :=
  reset_flag_invariant

/-- Witness for C10 at the reachable result state of `3 + 4 =`. -/
theorem reset_flag_reachable_post_result_witness :
    (Calculator.compute ⟨"4".toList, "3".toList,
        some ['+'], false⟩).1.previousOperand = [] ∧
    (Calculator.compute ⟨"4".toList, "3".toList,
        some ['+'], false⟩).1.operation = none ∧
    (Calculator.compute ⟨"4".toList, "3".toList,
        some ['+'], false⟩).1.currentOperand ≠ [] := by
  have hchain : Calculator.appendNumber ['4']
      (Calculator.chooseOperation ['+']
        (Calculator.appendNumber ['3'] Calculator.clear)) =
      ⟨"4".toList, "3".toList, some ['+'], false⟩ := by decide
  have hreach : Reachable (Calculator.compute
      ⟨"4".toList, "3".toList, some ['+'], false⟩).1 := by
    rw [← hchain]
    exact Reachable.compute _
      (Reachable.append _ _
        (Reachable.choose _ ['+']
          (Reachable.append _ _ Reachable.init (Or.inr ⟨'3', by decide, rfl⟩)))
        (Or.inr ⟨'4', by decide, rfl⟩))
  have hflag : (Calculator.compute
      ⟨"4".toList, "3".toList, some ['+'], false⟩).1.shouldResetDisplay = true := by
    rw [compute_of_add _ 3 4 pf_3 pf_4 rfl,
      finishCompute_eq _ _ 700000000 (by rw [abs_lt]; constructor <;> norm_num)
        (by unfold roundScaled epsilonJS; norm_num)]
    rfl
  exact reset_flag_reachable_post_result _ hreach hflag

theorem pf_1 : parseFloat "1".toList = some 1 :=
  parseFloat_eq _ (false, 1, 0, 0, false, 0) _ (by decide) (by norm_num [repValue])

theorem pf_1234567 : parseFloat "1234567".toList = some 1234567 :=
  parseFloat_eq _ (false, 1234567, 0, 0, false, 0) _ (by decide)
    (by norm_num [repValue])

/-- C9: `getDisplayNumber` maps empty input to empty output; on a string
with integer part `a` (parsing to `q`) and fractional part `b` it renders
the grouped `toLocaleString` of `q`, then `'.'`, then `b` truncated to 8
characters; in particular `"1234567.123456789"` renders as
`"1,234,567.12345678"`. -/
theorem getDisplayNumber_spec :
    Calculator.getDisplayNumber [] = [] ∧
    Calculator.getDisplayNumber "1234567.123456789".toList =
      "1,234,567.12345678".toList ∧
    (∀ (a b : List Char) (q : ℚ), '.' ∉ a → '.' ∉ b →
      parseFloat a = some q →
      Calculator.getDisplayNumber (a ++ '.' :: b) =
        toLocaleStringEn q ++ '.' :: b.take 8) := by
  refine ⟨?_, ?_, ?_⟩
  · unfold Calculator.getDisplayNumber
    rw [if_pos rfl]
  · have ht : ("1234567.123456789".toList).takeWhile (fun c => c != '.') =
        "1234567".toList := by decide
    have hd : ("1234567.123456789".toList).dropWhile (fun c => c != '.') =
        '.' :: "123456789".toList := by decide
    have hround : roundHalfExpand ((1234567 : ℚ)) = 1234567 := by
      unfold roundHalfExpand
      rw [if_pos (by norm_num)]
      norm_num
    have hloc : toLocaleStringEn (1234567 : ℚ) = "1,234,567".toList := by
      unfold toLocaleStringEn
      rw [hround]
      decide
    unfold Calculator.getDisplayNumber
    rw [if_neg (by decide), ht, hd, pf_1234567]
    show toLocaleStringEn (1234567 : ℚ) ++
        '.' :: (("123456789".toList).takeWhile (fun c => c != '.')).take 8 =
      "1,234,567.12345678".toList
    rw [hloc]
    decide
  · intro a b q ha hb hq
    have hpa : ∀ x ∈ a, (x != '.') = true :=
      fun x hx => bne_iff_ne.mpr (fun he => ha (he ▸ hx))
    have htw : (a ++ '.' :: b).takeWhile (fun c => c != '.') = a := by
      rw [List.takeWhile_append, List.takeWhile_eq_self_iff.mpr hpa, if_pos rfl,
        List.takeWhile_cons, if_neg (by decide), List.append_nil]
    have hdw : (a ++ '.' :: b).dropWhile (fun c => c != '.') = '.' :: b := by
      rw [dropWhile_append_of_all _ a _ hpa, List.dropWhile_cons, if_neg (by decide)]
    have htwb : b.takeWhile (fun c => c != '.') = b :=
      List.takeWhile_eq_self_iff.mpr
        (fun x hx => bne_iff_ne.mpr (fun he => hb (he ▸ hx)))
    unfold Calculator.getDisplayNumber
    rw [if_neg (List.append_ne_nil_of_right_ne_nil a (List.cons_ne_nil '.' b)),
      htw, hdw, hq]
    show toLocaleStringEn q ++
        '.' :: (b.takeWhile (fun c => c != '.')).take 8 =
      toLocaleStringEn q ++ '.' :: b.take 8
    rw [htwb]

/-- Witness for C9's compositional part at `"1.23"`. -/
theorem getDisplayNumber_spec_witness :
    Calculator.getDisplayNumber ("1".toList ++ '.' :: "23".toList) =
      toLocaleStringEn 1 ++ '.' :: ("23".toList).take 8 :=
  getDisplayNumber_spec.2.2 _ _ 1 (by decide) (by decide) pf_1

end Qalkulator
